import Mathlib

/-!
Verification of the privacy-proxy backend (`main.py`) against its
natural-language specification.

The Python source is shallowly embedded:
* strings are `List Char` (`Str`); Python `.lower()`, `.strip()`,
  `.startswith`, `in`, `.split` are modelled char-by-char (ASCII case
  mapping, which is what every claim exercises);
* `urllib.parse.urljoin` is an external library function; it is threaded
  through as an abstract total function `join : Str → Str → Str`
  (its exception fallback in `resolve` also returns a string, so a total
  function covers both outcomes);
* the regex `url\(([^)]+)\)` and `re.sub` are modelled by a left-to-right
  scanner (`cssGo`) driven by a fuel argument equal to the input length;
* HTML documents are modelled post-parse as node forests (`Node`), the
  way BeautifulSoup's `html.parser` delivers them (tag names already
  lower-cased, attribute dicts);
* the FastAPI handlers become pure functions from an explicit cache state
  and an abstract fetch oracle to a result/state/fetched-flag triple.
-/

namespace PProxy

abbrev Str := List Char

/-- Coerce a Lean string literal to the character-list representation. -/
def str (s : String) : Str := s.toList

/-- Python `str.lower()` restricted to ASCII (all claims are ASCII). -/
def toLowerS (s : Str) : Str := s.map Char.toLower

/-- Python `str.startswith`: `startsWithL s p` means `s` begins with `p`. -/
def startsWithL : Str → Str → Bool
  | _, [] => true
  | [], _ :: _ => false
  | c :: cs, p :: ps => if c = p then startsWithL cs ps else false

/-- Python `suffix in s` substring test (used for `"text/html" in content_type`). -/
def isSubstr (pat : Str) : Str → Bool
  | [] => pat.isEmpty
  | c :: cs => startsWithL (c :: cs) pat || isSubstr pat cs

/-- Python `str.endswith`. -/
def endsWithL (s suf : Str) : Bool := startsWithL s.reverse suf.reverse

/-- The ASCII whitespace characters stripped by Python `str.strip()`. -/
def isPyWs (c : Char) : Bool :=
  c = ' ' || c = '\t' || c = '\n' || c = '\r' || c = '\x0b' || c = '\x0c'

def dropEndWhile (p : Char → Bool) (s : Str) : Str := (s.reverse.dropWhile p).reverse

def stripWhile (p : Char → Bool) (s : Str) : Str := dropEndWhile p (s.dropWhile p)

/-- Python `str.strip()` (no argument). -/
def pyStrip (s : Str) : Str := stripWhile isPyWs s

/-- The single-quote character, written via its code point. -/
def squote : Char := Char.ofNat 39

/-- Member of the strip set of `strip('\"\'')` in the CSS replacer. -/
def isQuoteCh (c : Char) : Bool := c = '"' || c = squote

/-- Python `.strip('\"\'')`: remove single/double quotes from both ends. -/
def stripQuotes (s : Str) : Str := stripWhile isQuoteCh s

/-- Python `s.split(",")`. -/
def splitOnComma : Str → List Str
  | [] => [[]]
  | c :: cs =>
    if c = ',' then [] :: splitOnComma cs
    else match splitOnComma cs with
      | r :: rs => (c :: r) :: rs
      | [] => [[c]]

/-- `ABS_URL_RE = re.compile(r"^https?://", re.IGNORECASE)` applied via
`is_absolute` / the handlers' scheme checks (main.py:32,36-40). -/
def is_absolute (u : Str) : Bool :=
  startsWithL (toLowerS u) (str "http://") || startsWithL (toLowerS u) (str "https://")

/-- `resolve(base, link)` (main.py:43-52).  `urljoin` is abstracted by
`join`; the `except` branch also produces a string, so a total `join`
covers it.  Falsy (`None`/empty) and whitespace-only links give `none`. -/
def resolve (join : Str → Str → Str) (base : Str) (link : Option Str) : Option Str :=
  match link with
  | none => none
  | some l =>
    let t := pyStrip l
    if t = [] then none else some (join base t)

/-- Characters `urllib.parse.quote` keeps verbatim (letters, digits, `_.-~`);
`safe=''` adds nothing. -/
def pyQuoteSafeCh (c : Char) : Bool :=
  c.isAlpha || c.isDigit || c = '_' || c = '.' || c = '-' || c = '~'

/-- Upper-case hex digit, as `quote` emits. -/
def hexDigitCh (n : Nat) : Char :=
  if n < 10 then Char.ofNat (48 + n) else Char.ofNat (55 + n)

/-- UTF-8 encoding of one code point (how `quote` sees non-ASCII text). -/
def utf8Bytes (c : Char) : List Nat :=
  let n := c.toNat
  if n < 128 then [n]
  else if n < 2048 then [192 + n / 64, 128 + n % 64]
  else if n < 65536 then [224 + n / 4096, 128 + (n / 64) % 64, 128 + n % 64]
  else [240 + n / 262144, 128 + (n / 4096) % 64, 128 + (n / 64) % 64, 128 + n % 64]

def pctEncodeByte (b : Nat) : Str := ['%', hexDigitCh (b / 16), hexDigitCh (b % 16)]

def pctEncodeList : List Nat → Str
  | [] => []
  | b :: bs => pctEncodeByte b ++ pctEncodeList bs

/-- `requests.utils.quote(absolute_url, safe='')` (main.py:57). -/
def pyQuote : Str → Str
  | [] => []
  | c :: cs => (if pyQuoteSafeCh c then [c] else pctEncodeList (utf8Bytes c)) ++ pyQuote cs

/-- `rewritten.encode("utf-8")` (main.py:291). -/
def utf8Encode : Str → List Nat
  | [] => []
  | c :: cs => utf8Bytes c ++ utf8Encode cs

/-- `resource_proxy_path(absolute_url)` (main.py:55-57). -/
def resource_proxy_path (absolute_url : Str) : Str :=
  str "/resource?url=" ++ pyQuote absolute_url

/-! ### The stylesheet rewriter (main.py:33, 279-291)

`CSS_URL_RE = re.compile(r"url\(([^)]+)\)")` with `re.sub(replacer, text)`:
scan left to right; at each position a match is `url(` followed by one or
more non-`)` characters followed by `)`; replace the whole match by the
replacer's output and continue after it. -/

/-- Split at the first `)` when one exists: the characters before it (the
regex group `[^)]+` content, possibly empty) and the characters after. -/
def splitAtRParen : Str → Option (Str × Str)
  | [] => none
  | c :: cs =>
    if c = ')' then some ([], cs)
    else match splitAtRParen cs with
      | some (g, rest) => some (c :: g, rest)
      | none => none

/-- Does a `url\(([^)]+)\)` match start at the head of the string?
Returns the group and the remainder after the match. -/
def tryUrlMatch : Str → Option (Str × Str)
  | 'u' :: 'r' :: 'l' :: '(' :: t =>
    (match splitAtRParen t with
     | some (g, rest) => if g = [] then none else some (g, rest)
     | none => none)
  | _ => none

/-- The `replacer` closure (main.py:282-289), with the enclosing request
`url` as `base`. -/
def replacer (join : Str → Str → Str) (base : Str) (g : Str) : Str :=
  let raw := stripQuotes (pyStrip g)
  if startsWithL (toLowerS raw) (str "data:") then str "url(" ++ raw ++ str ")"
  else match resolve join base (some raw) with
    | none => str "url(" ++ raw ++ str ")"
    | some absu => str "url(" ++ resource_proxy_path absu ++ str ")"

/-- Left-to-right non-overlapping `re.sub` scan.  The fuel argument makes
the recursion structural; every step consumes at least one character, so
fuel equal to the input length computes the full substitution. -/
def cssGo (join : Str → Str → Str) (base : Str) : Nat → Str → Str
  | 0, s => s
  | _ + 1, [] => []
  | f + 1, c :: cs =>
    match tryUrlMatch (c :: cs) with
    | some (g, rest) => replacer join base g ++ cssGo join base f rest
    | none => c :: cssGo join base f cs

/-- `CSS_URL_RE.sub(replacer, text)` (main.py:290). -/
def css_url_sub (join : Str → Str → Str) (base : Str) (s : Str) : Str :=
  cssGo join base s.length s

/-- A literal `url(...)` token with group content `g`. -/
def urlTok (g : Str) : Str := 'u' :: 'r' :: 'l' :: '(' :: (g ++ [')'])

/-! ### Basic lemmas about the CSS scanner -/

lemma splitAtRParen_some :
    ∀ {s g rest : Str}, splitAtRParen s = some (g, rest) →
      s = g ++ ')' :: rest ∧ ')' ∉ g := by
  intro s
  induction s with
  | nil => intro g rest h; simp [splitAtRParen] at h
  | cons c cs ih =>
    intro g rest h
    by_cases hc : c = ')'
    · subst hc
      simp [splitAtRParen] at h
      obtain ⟨hg, hrest⟩ := h
      subst hg; subst hrest
      simp
    · simp [splitAtRParen, hc] at h
      cases hs : splitAtRParen cs with
      | none => rw [hs] at h; simp at h
      | some p =>
        rw [hs] at h
        obtain ⟨g', rest'⟩ := p
        simp at h
        obtain ⟨hg, hrest⟩ := h
        obtain ⟨h1, h2⟩ := ih hs
        subst hg; subst hrest
        constructor
        · simp [h1]
        · intro hmem
          rcases List.mem_cons.mp hmem with he | he
          · exact hc he.symm
          · exact h2 he

lemma splitAtRParen_append :
    ∀ {g : Str} (rest : Str), ')' ∉ g →
      splitAtRParen (g ++ ')' :: rest) = some (g, rest) := by
  intro g
  induction g with
  | nil => intro rest _; simp [splitAtRParen]
  | cons c cs ih =>
    intro rest hnp
    have hc : ¬ c = ')' := by
      intro h; exact hnp (by simp [h])
    have hcs : ')' ∉ cs := by
      intro h; exact hnp (by simp [h])
    simp [splitAtRParen, hc, ih rest hcs]

lemma tryUrlMatch_some :
    ∀ {s g rest : Str}, tryUrlMatch s = some (g, rest) →
      s = 'u' :: 'r' :: 'l' :: '(' :: (g ++ ')' :: rest) ∧ g ≠ [] ∧ ')' ∉ g := by
  intro s g rest h
  unfold tryUrlMatch at h
  split at h
  · rename_i t
    cases hs : splitAtRParen t with
    | none => rw [hs] at h; simp at h
    | some p =>
      obtain ⟨g', rest'⟩ := p
      rw [hs] at h
      by_cases hg : g' = []
      · simp [hg] at h
      · simp [hg] at h
        obtain ⟨h1, h2⟩ := h
        subst h1; subst h2
        obtain ⟨ht, hnp⟩ := splitAtRParen_some hs
        exact ⟨by rw [ht], hg, hnp⟩
  · simp at h

lemma tryUrlMatch_token (g rest : Str) (hg : g ≠ []) (hnp : ')' ∉ g) :
    tryUrlMatch (urlTok g ++ rest) = some (g, rest) := by
  have : urlTok g ++ rest = 'u' :: 'r' :: 'l' :: '(' :: (g ++ ')' :: rest) := by
    simp [urlTok]
  rw [this]
  simp [tryUrlMatch, splitAtRParen_append rest hnp, hg]

lemma cssGo_fuel (join : Str → Str → Str) (base : Str) :
    ∀ f₁ f₂ (s : Str), s.length ≤ f₁ → s.length ≤ f₂ →
      cssGo join base f₁ s = cssGo join base f₂ s := by
  intro f₁
  induction f₁ with
  | zero =>
    intro f₂ s h₁ _
    have : s = [] := by
      cases s with
      | nil => rfl
      | cons c cs => simp at h₁
    subst this
    cases f₂ <;> simp [cssGo]
  | succ k ih =>
    intro f₂ s h₁ h₂
    cases s with
    | nil => cases f₂ <;> simp [cssGo]
    | cons c cs =>
      cases f₂ with
      | zero => simp at h₂
      | succ m =>
        simp only [cssGo]
        cases hm : tryUrlMatch (c :: cs) with
        | none =>
          have hlen : cs.length ≤ k := by simp at h₁; omega
          have hlen' : cs.length ≤ m := by simp at h₂; omega
          show c :: cssGo join base k cs = c :: cssGo join base m cs
          rw [ih m cs hlen hlen']
        | some p =>
          obtain ⟨g, rest⟩ := p
          obtain ⟨hs, hgne, _⟩ := tryUrlMatch_some hm
          have hslen : (c :: cs).length = 4 + (g ++ ')' :: rest).length := by
            rw [hs]; simp; omega
          have hrest : rest.length ≤ k := by
            simp at hslen h₁; omega
          have hrest' : rest.length ≤ m := by
            simp at hslen h₂; omega
          show replacer join base g ++ cssGo join base k rest
              = replacer join base g ++ cssGo join base m rest
          rw [ih m rest hrest hrest']

lemma css_token_step (join : Str → Str → Str) (base : Str) (g rest : Str)
    (hg : g ≠ []) (hnp : ')' ∉ g) :
    css_url_sub join base (urlTok g ++ rest)
      = replacer join base g ++ css_url_sub join base rest := by
  have hlen : (urlTok g ++ rest).length = (4 + g.length + rest.length) + 1 := by
    simp [urlTok]; omega
  have hcons : urlTok g ++ rest = 'u' :: ('r' :: 'l' :: '(' :: (g ++ ')' :: rest)) := by
    simp [urlTok]
  unfold css_url_sub
  rw [hlen, hcons]
  simp only [cssGo]
  rw [← hcons, tryUrlMatch_token g rest hg hnp]
  simp only []
  congr 1
  exact cssGo_fuel join base (4 + g.length + rest.length) rest.length rest (by omega) (le_refl _)

/-! ### Claims C3 and C4: the stylesheet rewriter -/

/-- A concrete joiner used by witnesses and counterexamples; theorems hold
for every `join`. -/
def join0 : Str → Str → Str := fun b l => b ++ l

lemma str_url_open : str "url(" = ['u', 'r', 'l', '('] := rfl

lemma urlTok_eq (g : Str) : str "url(" ++ g ++ str ")" = urlTok g := by
  simp [urlTok, str_url_open]
  rfl

/-- C3 (amended): a `url(...)` token whose stripped reference begins with
`data:` (case-insensitive) is emitted as `url(` + stripped reference + `)`:
the surrounding whitespace and quotes of the original token are removed,
so the token is byte-identical only when it carried none (main.py:283-285). -/
theorem css_data_token (join : Str → Str → Str) (base g rest : Str)
    (hg : g ≠ []) (hnp : ')' ∉ g)
    (hdata : startsWithL (toLowerS (stripQuotes (pyStrip g))) (str "data:") = true) :
    css_url_sub join base (urlTok g ++ rest)
      = urlTok (stripQuotes (pyStrip g)) ++ css_url_sub join base rest := by
  rw [css_token_step join base g rest hg hnp]
  rw [← urlTok_eq]
  simp [replacer, hdata]

/-- Witness for `css_data_token` at the concrete token `url( 'data:x' )`. -/
theorem css_data_token_witness :
    ((str " 'data:x' " : Str) ≠ [] ∧ (')' ∉ (str " 'data:x' " : Str))
      ∧ startsWithL (toLowerS (stripQuotes (pyStrip (str " 'data:x' ")))) (str "data:") = true)
    ∧ css_url_sub join0 (str "https://e/") (urlTok (str " 'data:x' ") ++ [])
        = urlTok (stripQuotes (pyStrip (str " 'data:x' "))) ++ css_url_sub join0 (str "https://e/") [] :=
  ⟨⟨by decide, by decide, by decide⟩,
    css_data_token join0 (str "https://e/") (str " 'data:x' ") [] (by decide) (by decide) (by decide)⟩

/-- C3 counterexample: the input token `url( 'data:x' )` has a stripped
reference beginning with `data:`, yet the rewriter's output is
`url(data:x)` — the quotes and whitespace are gone, so the token does not
appear byte-identical in the output. -/
theorem css_data_quotes_counterexample :
    css_url_sub join0 (str "https://e/") (str "url( 'data:x' )") = str "url(data:x)"
    ∧ isSubstr (str "url( 'data:x' )")
        (css_url_sub join0 (str "https://e/") (str "url( 'data:x' )")) = false
    ∧ startsWithL (toLowerS (stripQuotes (pyStrip (str " 'data:x' ")))) (str "data:") = true := by
  refine ⟨by decide, by decide, by decide⟩

/-- C4: a `url(...)` token whose stripped reference is not a `data:` URI
and resolves against the base URL is replaced by
`url(/resource?url=E)` with `E` the percent-encoding of the resolved
absolute form (main.py:286-289, 55-57). -/
theorem css_external_token (join : Str → Str → Str) (base g rest A : Str)
    (hg : g ≠ []) (hnp : ')' ∉ g)
    (hdata : startsWithL (toLowerS (stripQuotes (pyStrip g))) (str "data:") = false)
    (hres : resolve join base (some (stripQuotes (pyStrip g))) = some A) :
    css_url_sub join base (urlTok g ++ rest)
      = str "url(" ++ resource_proxy_path A ++ str ")" ++ css_url_sub join base rest := by
  rw [css_token_step join base g rest hg hnp]
  simp [replacer, hdata, hres]

/-- Witness for `css_external_token` at the concrete token `url(/a.png)`. -/
theorem css_external_token_witness :
    ((str "/a.png" : Str) ≠ [] ∧ (')' ∉ (str "/a.png" : Str))
      ∧ startsWithL (toLowerS (stripQuotes (pyStrip (str "/a.png")))) (str "data:") = false
      ∧ resolve join0 (str "https://e/") (some (stripQuotes (pyStrip (str "/a.png"))))
          = some (str "https://e//a.png"))
    ∧ css_url_sub join0 (str "https://e/") (urlTok (str "/a.png") ++ [])
        = str "url(" ++ resource_proxy_path (str "https://e//a.png") ++ str ")"
            ++ css_url_sub join0 (str "https://e/") [] :=
  ⟨⟨by decide, by decide, by decide, by decide⟩,
    css_external_token join0 (str "https://e/") (str "/a.png") [] (str "https://e//a.png")
      (by decide) (by decide) (by decide) (by decide)⟩

/-! ### The document sanitizer (main.py:60-133)

HTML documents are modelled post-parse, the way `BeautifulSoup(html,
"html.parser")` delivers them: a forest of element/text nodes, element
names already lower-cased by the parser, attributes a dict (association
list; `html.parser` keeps the first occurrence of a duplicated attribute,
so keys are unique).  Each `for ... in soup.find_all(...)` loop becomes
one whole-tree pass; `find_all` collects its matches before the loop
mutates, and decomposing a node also drops its collected descendants, so
each loop is equivalent to the corresponding one-pass tree transform. -/

abbrev Attrs := List (Str × Str)

inductive Node where
  | text (s : Str)
  | elem (name : Str) (attrs : Attrs) (children : List Node)

/-- BeautifulSoup `tag.get(k)` / `tag.attrs[k]`. -/
def getAttr (A : Attrs) (k : Str) : Option Str :=
  match A with
  | [] => none
  | (k', v) :: r => if k' = k then some v else getAttr r k

/-- BeautifulSoup `tag[k] = v` (dict write: overwrite in place or append). -/
def setAttr (A : Attrs) (k : Str) (v : Str) : Attrs :=
  match A with
  | [] => [(k, v)]
  | (k', v') :: r => if k' = k then (k, v) :: r else (k', v') :: setAttr r k v

/-- BeautifulSoup `del tag.attrs[k]` (deleting an absent key is guarded in
the source by `if attr in ...`, and deleting from an association list
without the key is a no-op, so one definition covers both). -/
def delAttr (A : Attrs) (k : Str) : Attrs :=
  match A with
  | [] => []
  | (k', v) :: r => if k' = k then delAttr r k else (k', v) :: delAttr r k

def delAttrs (A : Attrs) (ks : List Str) : Attrs := ks.foldl (fun a k => delAttr a k) A

/-- One `find_all`-style pass: walk the forest, drop every element with
`rem`, rewrite the attributes of every survivor with `upd`. -/
def applyPass (rem : Str → Attrs → Bool) (upd : Str → Attrs → Attrs) : List Node → List Node
  | [] => []
  | Node.text s :: r => Node.text s :: applyPass rem upd r
  | Node.elem n A cs :: r =>
    if rem n A then applyPass rem upd r
    else Node.elem n (upd n A) (applyPass rem upd cs) :: applyPass rem upd r

/-- main.py:67-68 — elements removed with their whole subtree. -/
def bannedNames : List Str := [str "script", str "iframe", str "object", str "embed"]

def remBanned (n : Str) (_ : Attrs) : Bool := decide (n ∈ bannedNames)

def updId (_ : Str) (A : Attrs) : Attrs := A

def remNone (_ : Str) (_ : Attrs) : Bool := false

/-- main.py:74 — `k.lower().startswith("on")` (the `isinstance(k, str)`
guard always holds for parsed attributes). -/
def isOnAttrKey (k : Str) : Bool := startsWithL (toLowerS k) (str "on")

/-- main.py:71-75 — strip inline event handlers from every element. -/
def updStripOn (_ : Str) (A : Attrs) : Attrs := A.filter (fun kv => !isOnAttrKey kv.1)

/-- main.py:78-81 — `meta.get("http-equiv", "").lower() == "refresh"`. -/
def remMetaRefresh (n : Str) (A : Attrs) : Bool :=
  decide (n = str "meta") &&
    decide (toLowerS ((getAttr A (str "http-equiv")).getD []) = str "refresh")

/-- Whitespace splitting of a multi-valued attribute: `html.parser` hands
`link.get("rel")` to the code as the list of whitespace-separated tokens
of the attribute text (absent attribute: the `[]` / `or []` defaults). -/
def splitWsAux : Str → Str → List Str
  | acc, [] => if acc = [] then [] else [acc.reverse]
  | acc, c :: cs =>
    if isPyWs c then (if acc = [] then splitWsAux [] cs else acc.reverse :: splitWsAux [] cs)
    else splitWsAux (c :: acc) cs

def splitWs (s : Str) : List Str := splitWsAux [] s

def relList (A : Attrs) : List Str := splitWs ((getAttr A (str "rel")).getD [])

/-- main.py:85-86 — `"stylesheet" in [r.lower() for r in link.get("rel", [])]`. -/
def hasStylesheet (A : Attrs) : Bool := decide (str "stylesheet" ∈ (relList A).map toLowerS)

def preconnectKinds : List Str :=
  [str "preconnect", str "dns-prefetch", str "prefetch", str "preload"]

/-- main.py:96-99 — a `<link>` in the non-stylesheet branch whose raw
`rel` list holds a preconnect-like keyword is removed (note the source
checks the raw, not lower-cased, list here). -/
def remPreconnectLink (n : Str) (A : Attrs) : Bool :=
  decide (n = str "link") && !hasStylesheet A
    && preconnectKinds.any (fun k => decide (k ∈ relList A))

/-- main.py:87-94 — stylesheet `<link>`: rewrite `href` through the
resource proxy when resolvable, then drop integrity/crossorigin/referrerpolicy. -/
def linkRewriteAttrs (join : Str → Str → Str) (base : Str) (A : Attrs) : Attrs :=
  delAttrs
    (match resolve join base (getAttr A (str "href")) with
     | some absu => setAttr A (str "href") (resource_proxy_path absu)
     | none => A)
    [str "integrity", str "crossorigin", str "referrerpolicy"]

def updLink (join : Str → Str → Str) (base : Str) (n : Str) (A : Attrs) : Attrs :=
  if decide (n = str "link") && hasStylesheet A then linkRewriteAttrs join base A else A

def mediaNames : List Str :=
  [str "img", str "video", str "audio", str "source", str "track"]

/-- main.py:103 — `media_tag.get("src") or media_tag.get("data-src")`
(Python falsy chain: an empty `src` also falls through to `data-src`). -/
def mediaSrc (A : Attrs) : Option Str :=
  match getAttr A (str "src") with
  | some v => if v = [] then getAttr A (str "data-src") else some v
  | none => getAttr A (str "data-src")

/-- main.py:102-109 — media elements: rewrite `src` when resolvable, then
drop the listed attributes unconditionally. -/
def mediaRewriteAttrs (join : Str → Str → Str) (base : Str) (A : Attrs) : Attrs :=
  delAttrs
    (match resolve join base (mediaSrc A) with
     | some absu => setAttr A (str "src") (resource_proxy_path absu)
     | none => A)
    [str "loading", str "decoding", str "referrerpolicy", str "integrity",
     str "crossorigin", str "srcset", str "data-src"]

def updMedia (join : Str → Str → Str) (base : Str) (n : Str) (A : Attrs) : Attrs :=
  if decide (n ∈ mediaNames) then mediaRewriteAttrs join base A else A

/-- main.py:112-119 — anchors: when `href` resolves, store it in
`data-proxy-href` and set `href` to `#`; always set `target` and `rel`. -/
def anchorRewriteAttrs (join : Str → Str → Str) (base : Str) (A : Attrs) : Attrs :=
  setAttr
    (setAttr
      (match resolve join base (getAttr A (str "href")) with
       | some absu => setAttr (setAttr A (str "data-proxy-href") absu) (str "href") (str "#")
       | none => A)
      (str "target") (str "_self"))
    (str "rel") (str "nofollow noopener")

def updAnchor (join : Str → Str → Str) (base : Str) (n : Str) (A : Attrs) : Attrs :=
  if decide (n = str "a") then anchorRewriteAttrs join base A else A

/-- main.py:128 — `(f.get("method") or "get").lower()`. -/
def formMethod (A : Attrs) : Str :=
  match getAttr A (str "method") with
  | some v => if v = [] then str "get" else v
  | none => str "get"

/-- main.py:127-131 applied to the attrs after the `data-proxy-action`
step: set `action` to `#`, normalise `method`, drop `enctype`. -/
def formFinishAttrs (A1 : Attrs) : Attrs :=
  delAttr
    (setAttr (setAttr A1 (str "action") (str "#")) (str "method") (toLowerS (formMethod A1)))
    (str "enctype")

/-- main.py:122-131 — forms. -/
def formRewriteAttrs (join : Str → Str → Str) (base : Str) (A : Attrs) : Attrs :=
  formFinishAttrs
    (match resolve join base (getAttr A (str "action")) with
     | some absu => setAttr A (str "data-proxy-action") absu
     | none => A)

def updForm (join : Str → Str → Str) (base : Str) (n : Str) (A : Attrs) : Attrs :=
  if decide (n = str "form") then formRewriteAttrs join base A else A

/-- The element-removal stage of the sanitizer: passes 1-4 of
`sanitize_and_rewrite_html` (main.py:67-99), i.e. every pass that can
delete an element. -/
def removePhase (join : Str → Str → Str) (base : Str) (t : List Node) : List Node :=
  applyPass remPreconnectLink (updLink join base)
    (applyPass remMetaRefresh updId
      (applyPass remNone updStripOn
        (applyPass remBanned updId t)))

/-- `sanitize_and_rewrite_html(html, base_url)` (main.py:60-133) as the
composition of its seven loops, in source order. -/
def sanitize_and_rewrite_html (join : Str → Str → Str) (base : Str) (t : List Node) : List Node :=
  applyPass remNone (updForm join base)
    (applyPass remNone (updAnchor join base)
      (applyPass remNone (updMedia join base)
        (removePhase join base t)))

/-- Does `p` hold of every element (name, attrs) in the forest? -/
def allElemsB (p : Str → Attrs → Bool) : List Node → Bool
  | [] => true
  | Node.text _ :: r => allElemsB p r
  | Node.elem n A cs :: r => p n A && allElemsB p cs && allElemsB p r

/-- No attribute key (case-insensitively) starts with `on`. -/
def noOnAttrs (A : Attrs) : Bool := A.all (fun kv => !isOnAttrKey kv.1)

/-- The attribute dicts of all `<a>` elements of a forest, in document order. -/
def anchorsOf : List Node → List Attrs
  | [] => []
  | Node.text _ :: r => anchorsOf r
  | Node.elem n A cs :: r => (if n = str "a" then [A] else []) ++ anchorsOf cs ++ anchorsOf r

/-! ### Generic lemmas about passes -/

lemma applyPass_establish (rem : Str → Attrs → Bool) (upd : Str → Attrs → Attrs)
    (p : Str → Attrs → Bool)
    (h : ∀ n A, rem n A = false → p n (upd n A) = true) :
    ∀ t : List Node, allElemsB p (applyPass rem upd t) = true
  | [] => by simp [applyPass, allElemsB]
  | Node.text s :: r => by
    simp only [applyPass, allElemsB]
    exact applyPass_establish rem upd p h r
  | Node.elem n a cs :: r => by
    by_cases hr : rem n a = true
    · simp only [applyPass, hr, if_true]
      exact applyPass_establish rem upd p h r
    · have hr' : rem n a = false := by simpa using hr
      simp only [applyPass, hr', Bool.false_eq_true, if_false, allElemsB,
        Bool.and_eq_true, and_assoc]
      exact ⟨h n a hr', applyPass_establish rem upd p h cs,
             applyPass_establish rem upd p h r⟩

lemma applyPass_preserve (rem : Str → Attrs → Bool) (upd : Str → Attrs → Attrs)
    (p : Str → Attrs → Bool)
    (h : ∀ n A, p n A = true → rem n A = false → p n (upd n A) = true) :
    ∀ t : List Node, allElemsB p t = true → allElemsB p (applyPass rem upd t) = true
  | [] => by simp [applyPass]
  | Node.text s :: r => by
    simp only [applyPass, allElemsB]
    exact applyPass_preserve rem upd p h r
  | Node.elem n a cs :: r => by
    intro ht
    have h1 : p n a = true ∧ allElemsB p cs = true ∧ allElemsB p r = true := by
      simpa [allElemsB, Bool.and_eq_true, and_assoc] using ht
    by_cases hr : rem n a = true
    · simp only [applyPass, hr, if_true]
      exact applyPass_preserve rem upd p h r h1.2.2
    · have hr' : rem n a = false := by simpa using hr
      simp only [applyPass, hr', Bool.false_eq_true, if_false, allElemsB,
        Bool.and_eq_true, and_assoc]
      exact ⟨h n a h1.1 hr', applyPass_preserve rem upd p h cs h1.2.1,
             applyPass_preserve rem upd p h r h1.2.2⟩

/-! ### Lemmas about the attribute updaters -/

lemma updLink_ne (join : Str → Str → Str) (base : Str) (n : Str) (A : Attrs)
    (h : n ≠ str "link") : updLink join base n A = A := by
  simp [updLink, h]

lemma updMedia_ne (join : Str → Str → Str) (base : Str) (n : Str) (A : Attrs)
    (h : n ∉ mediaNames) : updMedia join base n A = A := by
  simp [updMedia, h]

lemma updAnchor_ne (join : Str → Str → Str) (base : Str) (n : Str) (A : Attrs)
    (h : n ≠ str "a") : updAnchor join base n A = A := by
  simp [updAnchor, h]

lemma updForm_ne (join : Str → Str → Str) (base : Str) (n : Str) (A : Attrs)
    (h : n ≠ str "form") : updForm join base n A = A := by
  simp [updForm, h]

lemma getAttr_setAttr_ne (A : Attrs) (k k' v : Str) (h : k' ≠ k) :
    getAttr (setAttr A k v) k' = getAttr A k' := by
  have h2 : ¬ k = k' := fun he => h he.symm
  induction A with
  | nil => simp [setAttr, getAttr, h2]
  | cons kv r ih =>
    obtain ⟨k0, v0⟩ := kv
    by_cases hk : k0 = k
    · subst hk
      simp [setAttr, getAttr, h2]
    · simp only [setAttr, hk, if_false, getAttr]
      by_cases hk' : k0 = k'
      · simp [hk']
      · simp [hk', ih]

lemma getAttr_setAttr_same (A : Attrs) (k v : Str) :
    getAttr (setAttr A k v) k = some v := by
  induction A with
  | nil => simp [setAttr, getAttr]
  | cons kv r ih =>
    obtain ⟨k0, v0⟩ := kv
    by_cases hk : k0 = k
    · subst hk
      simp [setAttr, getAttr]
    · simp [setAttr, getAttr, hk, ih]

lemma getAttr_delAttr_ne (A : Attrs) (k k' : Str) (h : k' ≠ k) :
    getAttr (delAttr A k) k' = getAttr A k' := by
  induction A with
  | nil => simp [delAttr]
  | cons kv r ih =>
    obtain ⟨k0, v0⟩ := kv
    by_cases hk : k0 = k
    · subst hk
      have h2 : ¬ k0 = k' := fun he => h he.symm
      simp [delAttr, getAttr, h2, ih]
    · simp only [delAttr, hk, if_false, getAttr]
      by_cases hk' : k0 = k'
      · simp [hk']
      · simp [hk', ih]

lemma getAttr_delAttrs_ne (ks : List Str) (A : Attrs) (k' : Str) (h : k' ∉ ks) :
    getAttr (delAttrs A ks) k' = getAttr A k' := by
  induction ks generalizing A with
  | nil => simp [delAttrs]
  | cons k r ih =>
    have hk : k' ≠ k := fun he => h (by simp [he])
    have hr : k' ∉ r := fun hm => h (by simp [hm])
    simp only [delAttrs, List.foldl_cons] at ih ⊢
    rw [ih (delAttr A k) hr, getAttr_delAttr_ne A k k' hk]

/-! ### No-`on*`-attribute lemmas -/

lemma noOnAttrs_updStripOn (n : Str) (A : Attrs) : noOnAttrs (updStripOn n A) = true := by
  simp only [noOnAttrs, updStripOn, List.all_eq_true, List.mem_filter]
  intro kv hkv
  exact hkv.2

lemma noOnAttrs_setAttr (A : Attrs) (k v : Str) (hk : isOnAttrKey k = false)
    (hA : noOnAttrs A = true) : noOnAttrs (setAttr A k v) = true := by
  induction A with
  | nil => simp [setAttr, noOnAttrs, hk]
  | cons kv r ih =>
    obtain ⟨k0, v0⟩ := kv
    simp only [noOnAttrs, List.all_cons, Bool.and_eq_true] at hA
    by_cases h0 : k0 = k
    · subst h0
      simp [setAttr, noOnAttrs, hk]
      simpa [noOnAttrs] using hA.2
    · simp only [setAttr, h0, if_false, noOnAttrs, List.all_cons, Bool.and_eq_true]
      exact ⟨hA.1, ih hA.2⟩

lemma noOnAttrs_delAttr (A : Attrs) (k : Str) (hA : noOnAttrs A = true) :
    noOnAttrs (delAttr A k) = true := by
  induction A with
  | nil => simp [delAttr, noOnAttrs]
  | cons kv r ih =>
    obtain ⟨k0, v0⟩ := kv
    simp only [noOnAttrs, List.all_cons, Bool.and_eq_true] at hA
    by_cases h0 : k0 = k
    · simp only [delAttr, h0, if_true]
      exact ih hA.2
    · simp only [delAttr, h0, if_false, noOnAttrs, List.all_cons, Bool.and_eq_true]
      exact ⟨hA.1, ih hA.2⟩

lemma noOnAttrs_delAttrs (ks : List Str) (A : Attrs) (hA : noOnAttrs A = true) :
    noOnAttrs (delAttrs A ks) = true := by
  induction ks generalizing A with
  | nil => simpa [delAttrs] using hA
  | cons k r ih =>
    simp only [delAttrs, List.foldl_cons] at ih ⊢
    exact ih (delAttr A k) (noOnAttrs_delAttr A k hA)

lemma noOn_linkRewrite (join : Str → Str → Str) (base : Str) (A : Attrs)
    (hA : noOnAttrs A = true) : noOnAttrs (linkRewriteAttrs join base A) = true := by
  unfold linkRewriteAttrs
  apply noOnAttrs_delAttrs
  cases hres : resolve join base (getAttr A (str "href")) with
  | some absu => exact noOnAttrs_setAttr A _ _ (by decide) hA
  | none => exact hA

lemma noOn_mediaRewrite (join : Str → Str → Str) (base : Str) (A : Attrs)
    (hA : noOnAttrs A = true) : noOnAttrs (mediaRewriteAttrs join base A) = true := by
  unfold mediaRewriteAttrs
  apply noOnAttrs_delAttrs
  cases hres : resolve join base (mediaSrc A) with
  | some absu => exact noOnAttrs_setAttr A _ _ (by decide) hA
  | none => exact hA

lemma noOn_anchorRewrite (join : Str → Str → Str) (base : Str) (A : Attrs)
    (hA : noOnAttrs A = true) : noOnAttrs (anchorRewriteAttrs join base A) = true := by
  unfold anchorRewriteAttrs
  apply noOnAttrs_setAttr _ _ _ (by decide)
  apply noOnAttrs_setAttr _ _ _ (by decide)
  cases hres : resolve join base (getAttr A (str "href")) with
  | some absu =>
    exact noOnAttrs_setAttr _ _ _ (by decide) (noOnAttrs_setAttr A _ _ (by decide) hA)
  | none => exact hA

lemma noOn_formRewrite (join : Str → Str → Str) (base : Str) (A : Attrs)
    (hA : noOnAttrs A = true) : noOnAttrs (formRewriteAttrs join base A) = true := by
  unfold formRewriteAttrs formFinishAttrs
  apply noOnAttrs_delAttr
  apply noOnAttrs_setAttr _ _ _ (by decide)
  apply noOnAttrs_setAttr _ _ _ (by decide)
  cases hres : resolve join base (getAttr A (str "action")) with
  | some absu => exact noOnAttrs_setAttr A _ _ (by decide) hA
  | none => exact hA

lemma noOn_updLink (join : Str → Str → Str) (base : Str) (n : Str) (A : Attrs)
    (hA : noOnAttrs A = true) : noOnAttrs (updLink join base n A) = true := by
  unfold updLink
  split
  · exact noOn_linkRewrite join base A hA
  · exact hA

lemma noOn_updMedia (join : Str → Str → Str) (base : Str) (n : Str) (A : Attrs)
    (hA : noOnAttrs A = true) : noOnAttrs (updMedia join base n A) = true := by
  unfold updMedia
  split
  · exact noOn_mediaRewrite join base A hA
  · exact hA

lemma noOn_updAnchor (join : Str → Str → Str) (base : Str) (n : Str) (A : Attrs)
    (hA : noOnAttrs A = true) : noOnAttrs (updAnchor join base n A) = true := by
  unfold updAnchor
  split
  · exact noOn_anchorRewrite join base A hA
  · exact hA

lemma noOn_updForm (join : Str → Str → Str) (base : Str) (n : Str) (A : Attrs)
    (hA : noOnAttrs A = true) : noOnAttrs (updForm join base n A) = true := by
  unfold updForm
  split
  · exact noOn_formRewrite join base A hA
  · exact hA

/-! ### The sanitizer's output invariants (claims C1, C9) -/

def pNoBanned (n : Str) (A : Attrs) : Bool := !remBanned n A

def pNoOn (_ : Str) (A : Attrs) : Bool := noOnAttrs A

def pNoMeta (n : Str) (A : Attrs) : Bool := !remMetaRefresh n A

def pNoPre (n : Str) (A : Attrs) : Bool := !remPreconnectLink n A

lemma sanitized_noBanned (join : Str → Str → Str) (base : Str) (t : List Node) :
    allElemsB pNoBanned (sanitize_and_rewrite_html join base t) = true := by
  unfold sanitize_and_rewrite_html removePhase
  have hpres : ∀ (rem : Str → Attrs → Bool) (upd : Str → Attrs → Attrs)
      (u : List Node), allElemsB pNoBanned u = true →
      allElemsB pNoBanned (applyPass rem upd u) = true :=
    fun rem upd => applyPass_preserve rem upd pNoBanned (fun n A hp _ => hp)
  apply hpres
  apply hpres
  apply hpres
  apply hpres
  apply hpres
  apply hpres
  exact applyPass_establish remBanned updId pNoBanned
    (fun n A h => by simp [pNoBanned, updId, h]) t

lemma sanitized_noOn (join : Str → Str → Str) (base : Str) (t : List Node) :
    allElemsB pNoOn (sanitize_and_rewrite_html join base t) = true := by
  unfold sanitize_and_rewrite_html removePhase
  apply applyPass_preserve _ _ pNoOn (fun n A hp _ => noOn_updForm join base n A hp)
  apply applyPass_preserve _ _ pNoOn (fun n A hp _ => noOn_updAnchor join base n A hp)
  apply applyPass_preserve _ _ pNoOn (fun n A hp _ => noOn_updMedia join base n A hp)
  apply applyPass_preserve _ _ pNoOn (fun n A hp _ => noOn_updLink join base n A hp)
  apply applyPass_preserve _ _ pNoOn (fun n A hp _ => hp)
  exact applyPass_establish remNone updStripOn pNoOn
    (fun n A _ => noOnAttrs_updStripOn n A) _

lemma updLink_meta (join : Str → Str → Str) (base : Str) (A : Attrs) :
    updLink join base (str "meta") A = A :=
  updLink_ne join base _ A (by decide)

lemma updMedia_meta (join : Str → Str → Str) (base : Str) (A : Attrs) :
    updMedia join base (str "meta") A = A :=
  updMedia_ne join base _ A (by decide)

lemma updAnchor_meta (join : Str → Str → Str) (base : Str) (A : Attrs) :
    updAnchor join base (str "meta") A = A :=
  updAnchor_ne join base _ A (by decide)

lemma updForm_meta (join : Str → Str → Str) (base : Str) (A : Attrs) :
    updForm join base (str "meta") A = A :=
  updForm_ne join base _ A (by decide)

lemma sanitized_noMeta (join : Str → Str → Str) (base : Str) (t : List Node) :
    allElemsB pNoMeta (sanitize_and_rewrite_html join base t) = true := by
  unfold sanitize_and_rewrite_html removePhase
  apply applyPass_preserve _ _ pNoMeta (fun n A hp _ => by
    by_cases hn : n = str "meta"
    · subst hn; rw [updForm_meta]; exact hp
    · simp [pNoMeta, remMetaRefresh, hn])
  apply applyPass_preserve _ _ pNoMeta (fun n A hp _ => by
    by_cases hn : n = str "meta"
    · subst hn; rw [updAnchor_meta]; exact hp
    · simp [pNoMeta, remMetaRefresh, hn])
  apply applyPass_preserve _ _ pNoMeta (fun n A hp _ => by
    by_cases hn : n = str "meta"
    · subst hn; rw [updMedia_meta]; exact hp
    · simp [pNoMeta, remMetaRefresh, hn])
  apply applyPass_preserve _ _ pNoMeta (fun n A hp _ => by
    by_cases hn : n = str "meta"
    · subst hn; rw [updLink_meta]; exact hp
    · simp [pNoMeta, remMetaRefresh, hn])
  exact applyPass_establish remMetaRefresh updId pNoMeta
    (fun n A h => by simp [pNoMeta, updId, h]) _

lemma getAttr_rel_linkRewrite (join : Str → Str → Str) (base : Str) (A : Attrs) :
    getAttr (linkRewriteAttrs join base A) (str "rel") = getAttr A (str "rel") := by
  unfold linkRewriteAttrs
  rw [getAttr_delAttrs_ne _ _ _ (by decide)]
  cases hres : resolve join base (getAttr A (str "href")) with
  | some absu =>
    simp only [hres]
    exact getAttr_setAttr_ne A (str "href") (str "rel") (resource_proxy_path absu) (by decide)
  | none => simp [hres]

lemma hasStylesheet_linkRewrite (join : Str → Str → Str) (base : Str) (A : Attrs) :
    hasStylesheet (linkRewriteAttrs join base A) = hasStylesheet A := by
  unfold hasStylesheet relList
  rw [getAttr_rel_linkRewrite]

lemma updLink_noPre (join : Str → Str → Str) (base : Str) (n : Str) (A : Attrs)
    (h : remPreconnectLink n A = false) :
    pNoPre n (updLink join base n A) = true := by
  by_cases hn : n = str "link"
  · subst hn
    by_cases hs : hasStylesheet A = true
    · have : updLink join base (str "link") A = linkRewriteAttrs join base A := by
        simp [updLink, hs]
      rw [this]
      simp [pNoPre, remPreconnectLink, hasStylesheet_linkRewrite, hs]
    · have hs' : hasStylesheet A = false := by simpa using hs
      have : updLink join base (str "link") A = A := by
        simp [updLink, hs']
      rw [this]
      simp [pNoPre, h]
  · rw [updLink_ne join base n A hn]
    simp [pNoPre, remPreconnectLink, hn]

lemma updLink_link_ne (join : Str → Str → Str) (base : Str) (A : Attrs) :
    updMedia join base (str "link") A = A ∧ updAnchor join base (str "link") A = A
      ∧ updForm join base (str "link") A = A :=
  ⟨updMedia_ne join base _ A (by decide), updAnchor_ne join base _ A (by decide),
    updForm_ne join base _ A (by decide)⟩

lemma sanitized_noPre (join : Str → Str → Str) (base : Str) (t : List Node) :
    allElemsB pNoPre (sanitize_and_rewrite_html join base t) = true := by
  unfold sanitize_and_rewrite_html removePhase
  apply applyPass_preserve _ _ pNoPre (fun n A hp _ => by
    by_cases hn : n = str "link"
    · subst hn; rw [(updLink_link_ne join base A).2.2]; exact hp
    · simp [pNoPre, remPreconnectLink, hn])
  apply applyPass_preserve _ _ pNoPre (fun n A hp _ => by
    by_cases hn : n = str "link"
    · subst hn; rw [(updLink_link_ne join base A).2.1]; exact hp
    · simp [pNoPre, remPreconnectLink, hn])
  apply applyPass_preserve _ _ pNoPre (fun n A hp _ => by
    by_cases hn : n = str "link"
    · subst hn; rw [(updLink_link_ne join base A).1]; exact hp
    · simp [pNoPre, remPreconnectLink, hn])
  exact applyPass_establish remPreconnectLink (updLink join base) pNoPre
    (fun n A h => updLink_noPre join base n A h) _

/-- C1: for every document forest and base URL, the sanitizer's output
contains no `script`, `iframe`, `object` or `embed` element: the removal
pass deletes each such element with its whole subtree, and no later pass
reintroduces one (main.py:67-68). -/
theorem sanitize_no_script_iframe_object_embed (join : Str → Str → Str)
    (base : Str) (t : List Node) :
    allElemsB pNoBanned (sanitize_and_rewrite_html join base t) = true :=
  sanitized_noBanned join base t

/-- C9: the sanitizer's output is a fixed point of the removal rules: it
contains no element that the script/iframe/object/embed rule, the
inline-handler (`on*`) stripping rule, the meta-refresh rule, or the
preconnect/prefetch link rule would delete or strip, so a second run with
the same base URL removes nothing (main.py:60-133). -/
theorem sanitize_fixed_point_of_removal (join : Str → Str → Str)
    (base : Str) (t : List Node) :
    allElemsB pNoBanned (sanitize_and_rewrite_html join base t) = true
    ∧ allElemsB pNoOn (sanitize_and_rewrite_html join base t) = true
    ∧ allElemsB pNoMeta (sanitize_and_rewrite_html join base t) = true
    ∧ allElemsB pNoPre (sanitize_and_rewrite_html join base t) = true :=
  ⟨sanitized_noBanned join base t, sanitized_noOn join base t,
    sanitized_noMeta join base t, sanitized_noPre join base t⟩

/-! ### Claim C5: anchor rewriting -/

lemma anchorsOf_applyPass_remNone (upd : Str → Attrs → Attrs) :
    ∀ t : List Node, anchorsOf (applyPass remNone upd t)
      = (anchorsOf t).map (upd (str "a"))
  | [] => by simp [applyPass, anchorsOf]
  | Node.text s :: r => by
    simp only [applyPass, anchorsOf]
    exact anchorsOf_applyPass_remNone upd r
  | Node.elem n a cs :: r => by
    simp only [applyPass, remNone, Bool.false_eq_true, if_false, anchorsOf]
    rw [anchorsOf_applyPass_remNone upd cs, anchorsOf_applyPass_remNone upd r]
    by_cases hn : n = str "a"
    · subst hn
      simp [List.map_append]
    · simp [hn, List.map_append]

lemma map_id_of_eq {α : Type} (f : α → α) (h : ∀ x, f x = x) : ∀ l : List α, l.map f = l
  | [] => rfl
  | x :: xs => by rw [List.map_cons, h x, map_id_of_eq f h xs]

lemma updAnchor_a (join : Str → Str → Str) (base : Str) :
    updAnchor join base (str "a") = anchorRewriteAttrs join base := by
  funext A
  simp [updAnchor]

lemma anchorsOf_sanitize (join : Str → Str → Str) (base : Str) (t : List Node) :
    anchorsOf (sanitize_and_rewrite_html join base t)
      = (anchorsOf (removePhase join base t)).map (anchorRewriteAttrs join base) := by
  unfold sanitize_and_rewrite_html
  rw [anchorsOf_applyPass_remNone, anchorsOf_applyPass_remNone, anchorsOf_applyPass_remNone]
  rw [map_id_of_eq (updMedia join base (str "a"))
    (fun A => updMedia_ne join base _ A (by decide))]
  rw [updAnchor_a]
  rw [map_id_of_eq (updForm join base (str "a"))
    (fun A => updForm_ne join base _ A (by decide))]

lemma anchorRewrite_href (join : Str → Str → Str) (base : Str) (A : Attrs) (u : Str)
    (hres : resolve join base (getAttr A (str "href")) = some u) :
    getAttr (anchorRewriteAttrs join base A) (str "href") = some (str "#")
    ∧ getAttr (anchorRewriteAttrs join base A) (str "data-proxy-href") = some u := by
  unfold anchorRewriteAttrs
  rw [hres]
  constructor
  · rw [getAttr_setAttr_ne _ _ _ _ (by decide), getAttr_setAttr_ne _ _ _ _ (by decide),
      getAttr_setAttr_same]
  · rw [getAttr_setAttr_ne _ _ _ _ (by decide), getAttr_setAttr_ne _ _ _ _ (by decide),
      getAttr_setAttr_ne _ _ _ _ (by decide), getAttr_setAttr_same]

lemma anchorRewrite_always (join : Str → Str → Str) (base : Str) (A : Attrs) :
    getAttr (anchorRewriteAttrs join base A) (str "target") = some (str "_self")
    ∧ getAttr (anchorRewriteAttrs join base A) (str "rel") = some (str "nofollow noopener") := by
  unfold anchorRewriteAttrs
  constructor
  · rw [getAttr_setAttr_ne _ _ _ _ (by decide), getAttr_setAttr_same]
  · rw [getAttr_setAttr_same]

/-- C5 (amended): every `<a>` element that survives the element-removal
stage has its attributes transformed by the anchor rule, in document
order; the rule sets `href` to `#` and `data-proxy-href` to the resolved
target when the href resolves, and always sets `target` / `rel`
(main.py:112-119).  Anchors inside a subtree deleted by the removal rules
(e.g. inside an `<iframe>`) do not survive at all. -/
theorem sanitize_anchor_rewrite (join : Str → Str → Str) (base : Str) (t : List Node) :
    anchorsOf (sanitize_and_rewrite_html join base t)
      = (anchorsOf (removePhase join base t)).map (anchorRewriteAttrs join base)
    ∧ (∀ A u, resolve join base (getAttr A (str "href")) = some u →
        getAttr (anchorRewriteAttrs join base A) (str "href") = some (str "#")
        ∧ getAttr (anchorRewriteAttrs join base A) (str "data-proxy-href") = some u)
    ∧ (∀ A, getAttr (anchorRewriteAttrs join base A) (str "target") = some (str "_self")
        ∧ getAttr (anchorRewriteAttrs join base A) (str "rel") = some (str "nofollow noopener")) :=
  ⟨anchorsOf_sanitize join base t,
    fun A u hres => anchorRewrite_href join base A u hres,
    fun A => anchorRewrite_always join base A⟩

/-- Witness for `sanitize_anchor_rewrite` at a concrete anchor with
resolvable `href`. -/
theorem sanitize_anchor_rewrite_witness :
    resolve join0 (str "https://e/") (getAttr [(str "href", str "x")] (str "href"))
      = some (str "https://e/x")
    ∧ getAttr (anchorRewriteAttrs join0 (str "https://e/") [(str "href", str "x")]) (str "href")
        = some (str "#")
    ∧ getAttr (anchorRewriteAttrs join0 (str "https://e/") [(str "href", str "x")])
        (str "data-proxy-href") = some (str "https://e/x") :=
  ⟨by decide,
    ((sanitize_anchor_rewrite join0 (str "https://e/") []).2.1 [(str "href", str "x")]
      (str "https://e/x") (by decide)).1,
    ((sanitize_anchor_rewrite join0 (str "https://e/") []).2.1 [(str "href", str "x")]
      (str "https://e/x") (by decide)).2⟩

/-- C5 counterexample: the input holds an `<a href="x">` whose href
resolves against the base, but it sits inside an `<iframe>`; the sanitizer
deletes the iframe's whole subtree, so the output has no `<a>` element at
all — in particular none with `href="#"` — contradicting the claim's
universal statement over every input anchor. -/
theorem sanitize_anchor_lost_counterexample :
    anchorsOf [Node.elem (str "iframe") []
        [Node.elem (str "a") [(str "href", str "x")] []]]
      = [[(str "href", str "x")]]
    ∧ resolve join0 (str "https://e/") (getAttr [(str "href", str "x")] (str "href"))
        = some (str "https://e/x")
    ∧ sanitize_and_rewrite_html join0 (str "https://e/")
        [Node.elem (str "iframe") []
          [Node.elem (str "a") [(str "href", str "x")] []]] = [] := by
  refine ⟨?_, by decide, ?_⟩
  · have ha : str "iframe" = str "a" ↔ False := by
      constructor
      · intro h; exact absurd h (by decide)
      · intro h; exact h.elim
    simp [anchorsOf, ha]
  · have hb : remBanned (str "iframe") ([] : Attrs) = true := by decide
    simp [sanitize_and_rewrite_html, removePhase, applyPass, hb]

/-! ### The HTTP handlers (main.py:211-308)

Each handler becomes a pure function of: the whitelist environment value
(`os.getenv("PROXY_WHITELIST", "")`), an abstract fetch oracle standing
for `requests.get(...).raise_for_status()` (`.error e` = any exception,
carrying its text; `.ok r` = a 2xx response with its final redirect-resolved
URL, `Content-Type` header, byte body and decoded text), the two module
caches as explicit state, and the `url` query parameter.  The output
records the HTTP result, the new cache state, and whether a network fetch
was attempted. -/

deriving instance DecidableEq for Except

structure FetchResult where
  finalUrl : Str
  contentType : Option Str
  body : List Nat
  text : Str
deriving DecidableEq

abbrev Fetch := Str → Except Str FetchResult

structure St where
  proxyCache : List (Str × Str)
  resourceCache : List (Str × (List Nat × Str))
deriving DecidableEq

structure ProxyResp where
  url : Str
  html : Str
deriving DecidableEq

structure RResp where
  body : List Nat
  mediaType : Str
deriving DecidableEq

structure HOut (α : Type) where
  result : Except (Nat × Str) α
  state : St
  fetched : Bool
deriving DecidableEq

/-- Python dict read `CACHE.get(k)` / `k in CACHE` plus `CACHE[k]`. -/
def alookup {α : Type} : List (Str × α) → Str → Option α
  | [], _ => none
  | (k, v) :: r, k' => if k = k' then some v else alookup r k'

/-- Python dict write `CACHE[k] = v` (overwrite in place or append). -/
def aset {α : Type} : List (Str × α) → Str → α → List (Str × α)
  | [], k, v => [(k, v)]
  | (k0, v0) :: r, k, v => if k0 = k then (k, v) :: r else (k0, v0) :: aset r k v

/-- The comma-split, stripped, non-empty, lower-cased whitelist entries:
`[h.strip().lower() for h in whitelist.split(",") if h.strip()]`
(main.py:219, 255). -/
def wlEntries (wl : Str) : List Str :=
  (splitOnComma wl).filterMap fun h =>
    if pyStrip h = [] then none else some (toLowerS (pyStrip h))

/-- `h if h.startswith("http") else f"https://{h}"` (main.py:220, 256). -/
def wlForm (h : Str) : Str :=
  if startsWithL h (str "http") then h else str "https://" ++ h

/-- The whitelist check shared verbatim by both handlers
(main.py:217-221 and 253-257): accept when the stripped configuration is
empty, else when some entry's comparison form prefixes the lowercased URL. -/
def isAllowed (envWl url : Str) : Bool :=
  (pyStrip envWl).isEmpty
    || (wlEntries (pyStrip envWl)).any fun h => startsWithL (toLowerS url) (wlForm h)

def msg400 : Str := str "URL must start with http:// or https://"

def msg403 : Str := str "URL not allowed by whitelist"

/-- main.py:236-241 — placeholder page for non-HTML upstream content,
else the sanitized text.  `sanitizeStr` stands for
`sanitize_and_rewrite_html` at the string level (parse, rewrite,
serialize); the handler-level claims hold for every such function, and
the tree-level sanitizer is verified separately above. -/
def pageHtml (sanitizeStr : Str → Str → Str) (r : FetchResult) : Str :=
  let ct := toLowerS (r.contentType.getD [])
  if !isSubstr (str "text/html") ct && !startsWithL r.text (str "<!DOCTYPE html")
  then str "<html><body><h2>Non-HTML content</h2><p>Content-Type: " ++ ct
    ++ str "</p></body></html>"
  else sanitizeStr r.text r.finalUrl

/-- `GET /proxy` (main.py:211-244). -/
def proxy (envWl : Str) (fetch : Fetch) (sanitizeStr : Str → Str → Str)
    (s : St) (url : Str) : HOut ProxyResp :=
  if !is_absolute url then ⟨.error (400, msg400), s, false⟩
  else if !isAllowed envWl url then ⟨.error (403, msg403), s, false⟩
  else match alookup s.proxyCache url with
  | some html => ⟨.ok ⟨url, html⟩, s, false⟩
  | none =>
    match fetch url with
    | .error e => ⟨.error (502, str "Upstream fetch failed: " ++ e), s, true⟩
    | .ok r =>
      ⟨.ok ⟨r.finalUrl, pageHtml sanitizeStr r⟩,
        ⟨aset s.proxyCache url (pageHtml sanitizeStr r), s.resourceCache⟩, true⟩

def defaultCT : Str := str "application/octet-stream"

/-- main.py:274 — `(r.headers.get("Content-Type") or
"application/octet-stream").split(";")[0].strip().lower()` (the Python
`or` also replaces an empty header with the default). -/
def resourceCT (h : Option Str) : Str :=
  toLowerS (pyStrip ((match h with
    | none => defaultCT
    | some v => if v = [] then defaultCT else v).takeWhile (fun c => decide (c ≠ ';'))))

/-- main.py:279 — `"text/css" in content_type or
urlparse(url).path.lower().endswith(".css")`; the stdlib path extractor
`urlparse(url).path` is abstracted as `pathOf`. -/
def isCssBranch (pathOf : Str → Str) (url : Str) (ct : Str) : Bool :=
  isSubstr (str "text/css") ct || endsWithL (toLowerS (pathOf url)) (str ".css")

/-- The 5 MiB cache-admission bound (main.py:298). -/
def maxResBytes : Nat := 5 * 1024 * 1024

/-- `GET /resource` (main.py:247-301). -/
def resource (envWl : Str) (fetch : Fetch) (join : Str → Str → Str)
    (pathOf : Str → Str) (s : St) (url : Str) : HOut RResp :=
  if !is_absolute url then ⟨.error (400, msg400), s, false⟩
  else if !isAllowed envWl url then ⟨.error (403, msg403), s, false⟩
  else match alookup s.resourceCache url with
  | some (content, ctype) => ⟨.ok ⟨content, ctype⟩, s, false⟩
  | none =>
    match fetch url with
    | .error e => ⟨.error (502, str "Resource fetch failed: " ++ e), s, true⟩
    | .ok r =>
      let ct0 := resourceCT r.contentType
      let css := isCssBranch pathOf url ct0
      let content := if css then utf8Encode (css_url_sub join url r.text) else r.body
      let ctype := if css then str "text/css" else ct0
      ⟨.ok ⟨content, ctype⟩,
        if content.length ≤ maxResBytes
        then ⟨s.proxyCache, aset s.resourceCache url (content, ctype)⟩
        else s, true⟩

/-- `POST /session/reset` (main.py:304-308): both caches cleared. -/
def reset_session (_ : St) : St := ⟨[], []⟩

/-! ### Concrete fixtures for witnesses and counterexamples -/

def fr0 : FetchResult :=
  ⟨str "https://b/final", some (str "text/html"), [], str "page"⟩

def fetch0 : Fetch := fun _ => .ok fr0

def san0 : Str → Str → Str := fun t _ => t

def pathOf0 : Str → Str := fun _ => str "/"

def st0 : St := ⟨[], []⟩

/-! ### Claim C8: scheme/whitelist failures are fast and side-effect free -/

/-- C8: a request to either handler that fails the scheme check (400) or
the whitelist check (403) returns before any fetch is attempted
(`fetched = false`) and leaves both caches untouched (the returned state
is the input state) (main.py:211-221, 247-257). -/
theorem checks_fail_fast (envWl : Str) (fetch : Fetch) (sanitizeStr : Str → Str → Str)
    (join : Str → Str → Str) (pathOf : Str → Str) (s : St) (url : Str) :
    (is_absolute url = false →
      proxy envWl fetch sanitizeStr s url = ⟨.error (400, msg400), s, false⟩
      ∧ resource envWl fetch join pathOf s url = ⟨.error (400, msg400), s, false⟩)
    ∧ (is_absolute url = true → isAllowed envWl url = false →
      proxy envWl fetch sanitizeStr s url = ⟨.error (403, msg403), s, false⟩
      ∧ resource envWl fetch join pathOf s url = ⟨.error (403, msg403), s, false⟩) := by
  constructor
  · intro h
    constructor <;> simp [proxy, resource, h]
  · intro h1 h2
    constructor <;> simp [proxy, resource, h1, h2]

/-- Witness for `checks_fail_fast`: a non-http scheme gives 400 from
`/proxy`, a whitelist miss gives 403 from `/resource`. -/
theorem checks_fail_fast_witness :
    (is_absolute (str "ftp://x") = false
      ∧ proxy (str "allowed.example") fetch0 san0 st0 (str "ftp://x")
          = ⟨.error (400, msg400), st0, false⟩)
    ∧ (is_absolute (str "https://blocked.example/") = true
      ∧ isAllowed (str "allowed.example") (str "https://blocked.example/") = false
      ∧ resource (str "allowed.example") fetch0 join0 pathOf0 st0 (str "https://blocked.example/")
          = ⟨.error (403, msg403), st0, false⟩) :=
  ⟨⟨by decide,
    ((checks_fail_fast (str "allowed.example") fetch0 san0 join0 pathOf0 st0
      (str "ftp://x")).1 (by decide)).1⟩,
   ⟨by decide, by decide,
    ((checks_fail_fast (str "allowed.example") fetch0 san0 join0 pathOf0 st0
      (str "https://blocked.example/")).2 (by decide) (by decide)).2⟩⟩

/-! ### Claim C10: the whitelist check precedes the cache lookup -/

/-- C10: even when the requested URL is present in the page cache and in
the resource cache, a request whose URL the active whitelist rejects gets
403 from both handlers, never the cached content (main.py:217-224,
253-261: the whitelist test sits before the cache lookup). -/
theorem whitelist_precedes_cache (envWl : Str) (fetch : Fetch)
    (sanitizeStr : Str → Str → Str) (join : Str → Str → Str) (pathOf : Str → Str)
    (s : St) (url : Str) (html : Str) (rc : List Nat × Str)
    (habs : is_absolute url = true) (hdeny : isAllowed envWl url = false)
    (hpc : alookup s.proxyCache url = some html)
    (hrc : alookup s.resourceCache url = some rc) :
    (proxy envWl fetch sanitizeStr s url).result = .error (403, msg403)
    ∧ (resource envWl fetch join pathOf s url).result = .error (403, msg403) := by
  constructor <;> simp [proxy, resource, habs, hdeny]

/-- Witness for `whitelist_precedes_cache`: both caches hold the blocked
URL, yet both handlers answer 403. -/
theorem whitelist_precedes_cache_witness :
    (is_absolute (str "https://blocked.example/") = true
      ∧ isAllowed (str "allowed.example") (str "https://blocked.example/") = false
      ∧ alookup [(str "https://blocked.example/", str "<p>cached</p>")]
          (str "https://blocked.example/") = some (str "<p>cached</p>")
      ∧ alookup [(str "https://blocked.example/", ([55], str "text/css"))]
          (str "https://blocked.example/") = some ([55], str "text/css"))
    ∧ (proxy (str "allowed.example") fetch0 san0
        ⟨[(str "https://blocked.example/", str "<p>cached</p>")],
         [(str "https://blocked.example/", ([55], str "text/css"))]⟩
        (str "https://blocked.example/")).result = .error (403, msg403)
    ∧ (resource (str "allowed.example") fetch0 join0 pathOf0
        ⟨[(str "https://blocked.example/", str "<p>cached</p>")],
         [(str "https://blocked.example/", ([55], str "text/css"))]⟩
        (str "https://blocked.example/")).result = .error (403, msg403) :=
  ⟨⟨by decide, by decide, by decide, by decide⟩,
    (whitelist_precedes_cache (str "allowed.example") fetch0 san0 join0 pathOf0
      ⟨[(str "https://blocked.example/", str "<p>cached</p>")],
       [(str "https://blocked.example/", ([55], str "text/css"))]⟩
      (str "https://blocked.example/") (str "<p>cached</p>") ([55], str "text/css")
      (by decide) (by decide) (by decide) (by decide)).1,
    (whitelist_precedes_cache (str "allowed.example") fetch0 san0 join0 pathOf0
      ⟨[(str "https://blocked.example/", str "<p>cached</p>")],
       [(str "https://blocked.example/", ([55], str "text/css"))]⟩
      (str "https://blocked.example/") (str "<p>cached</p>") ([55], str "text/css")
      (by decide) (by decide) (by decide) (by decide)).2⟩

/-! ### Claim C2: the `/proxy` response -/

/-- C2 (amended): for a scheme-absolute, whitelist-allowed URL — on a
cache miss whose fetch succeeds, the response's `url` field is the final
redirect-resolved URL and its `html` field is the sanitized text when the
content is HTML-like (a placeholder page otherwise), and the html is
cached under the requested URL; on a cache hit the `url` field is the
requested URL (the cache stores only the html, so the final URL of the
original fetch is not reproduced) and the `html` field is the cached
value (main.py:223-224, 241-244). -/
theorem proxy_response_characterized (envWl : Str) (fetch : Fetch)
    (sanitizeStr : Str → Str → Str) (s : St) (url : Str)
    (habs : is_absolute url = true) (hok : isAllowed envWl url = true) :
    (∀ html, alookup s.proxyCache url = some html →
      proxy envWl fetch sanitizeStr s url = ⟨.ok ⟨url, html⟩, s, false⟩)
    ∧ (alookup s.proxyCache url = none → ∀ r, fetch url = .ok r →
      proxy envWl fetch sanitizeStr s url
        = ⟨.ok ⟨r.finalUrl, pageHtml sanitizeStr r⟩,
            ⟨aset s.proxyCache url (pageHtml sanitizeStr r), s.resourceCache⟩, true⟩) := by
  constructor
  · intro html hc
    simp [proxy, habs, hok, hc]
  · intro hc r hf
    simp [proxy, habs, hok, hc, hf]

/-- Witness for `proxy_response_characterized`: a fresh fetch through an
upstream redirect reports the final URL and caches the html. -/
theorem proxy_response_characterized_witness :
    (is_absolute (str "https://a/start") = true
      ∧ isAllowed (str "") (str "https://a/start") = true
      ∧ alookup st0.proxyCache (str "https://a/start") = none
      ∧ fetch0 (str "https://a/start") = .ok fr0)
    ∧ proxy (str "") fetch0 san0 st0 (str "https://a/start")
        = ⟨.ok ⟨fr0.finalUrl, pageHtml san0 fr0⟩,
            ⟨aset st0.proxyCache (str "https://a/start") (pageHtml san0 fr0),
             st0.resourceCache⟩, true⟩ :=
  ⟨⟨by decide, by decide, by decide, by decide⟩,
    (proxy_response_characterized (str "") fetch0 san0 st0 (str "https://a/start")
      (by decide) (by decide)).2 (by decide) fr0 (by decide)⟩

/-- C2 counterexample: `fetch0` resolves `https://a/start` to the final
URL `https://b/final`.  The first request reports the final URL; the
second, answered from the page cache, reports the requested URL
`https://a/start`, which differs from the final redirect-resolved URL of
the fetch that produced the cached entry — contradicting the claim's
cache-hit case. -/
theorem proxy_cached_url_counterexample :
    (proxy (str "") fetch0 san0 st0 (str "https://a/start")).result
      = .ok ⟨str "https://b/final", str "page"⟩
    ∧ (proxy (str "") fetch0 san0
        (proxy (str "") fetch0 san0 st0 (str "https://a/start")).state
        (str "https://a/start")).result
      = .ok ⟨str "https://a/start", str "page"⟩
    ∧ fetch0 (str "https://a/start")
        = .ok ⟨str "https://b/final", some (str "text/html"), [], str "page"⟩
    ∧ (str "https://a/start" : Str) ≠ str "https://b/final" :=
  ⟨by decide, by decide, by decide, by decide⟩

/-! ### Claim C6: the whitelist check -/

/-- C6 counterexample: the configured entry `httpx.example.com` is a bare
host (it is not scheme-qualified: it starts with neither `http://` nor
`https://`), so per the claim the URL `https://httpx.example.com/` —
which starts with `https://httpx.example.com` — must be accepted.  The
code only prefixes `https://` to entries that do not start with the
literal `http`, so this entry is compared as-is and the check rejects. -/
theorem whitelist_http_entry_counterexample :
    isAllowed (str "httpx.example.com") (str "https://httpx.example.com/") = false
    ∧ startsWithL (str "httpx.example.com") (str "http://") = false
    ∧ startsWithL (str "httpx.example.com") (str "https://") = false
    ∧ startsWithL (toLowerS (str "https://httpx.example.com/"))
        (str "https://" ++ str "httpx.example.com") = true
    ∧ wlEntries (pyStrip (str "httpx.example.com")) = [str "httpx.example.com"] :=
  ⟨by decide, by decide, by decide, by decide, by decide⟩

/-- C6 (amended): the check accepts iff the stripped configuration is
empty, or some configured entry (comma-split, stripped, non-empty,
lower-cased) is a prefix of the lowercased URL after the comparison-form
rule: an entry starting with the literal string `http` (not necessarily
scheme-qualified) is compared as-is, any other entry is compared with
`https://` prefixed.  In particular a non-empty configuration with no
entries (e.g. `","`) rejects every URL (main.py:217-221, 253-257). -/
theorem isAllowed_characterized (envWl url : Str) :
    isAllowed envWl url = true ↔
      (pyStrip envWl = []
        ∨ ∃ h ∈ wlEntries (pyStrip envWl),
            startsWithL (toLowerS url)
              (if startsWithL h (str "http") then h else str "https://" ++ h) = true) := by
  unfold isAllowed wlForm
  simp [List.any_eq_true, List.isEmpty_iff]

/-! ### Claim C7: the 5 MiB resource-cache admission invariant -/

lemma alookup_mem {α : Type} : ∀ (l : List (Str × α)) (k : Str) (v : α),
    alookup l k = some v → (k, v) ∈ l
  | [], k, v => by simp [alookup]
  | (k0, v0) :: r, k, v => by
    intro h
    by_cases hk : k0 = k
    · subst hk
      simp [alookup] at h
      simp [h]
    · simp [alookup, hk] at h
      simp [alookup_mem r k v h]

lemma mem_aset {α : Type} : ∀ (l : List (Str × α)) (k : Str) (v : α) (p : Str × α),
    p ∈ aset l k v → p = (k, v) ∨ p ∈ l
  | [], k, v, p => by
    intro h
    simp [aset] at h
    exact Or.inl h
  | (k0, v0) :: r, k, v, p => by
    intro h
    by_cases hk : k0 = k
    · subst hk
      simp [aset] at h
      rcases h with h | h
      · exact Or.inl h
      · exact Or.inr (by simp [h])
    · simp [aset, hk] at h
      rcases h with h | h
      · exact Or.inr (by simp [h])
      · rcases mem_aset r k v p h with h' | h'
        · exact Or.inl h'
        · exact Or.inr (by simp [h'])

/-- The bytes served by `/resource` on a cache miss (main.py:276-291):
the UTF-8 re-encoding of the rewritten text on the CSS branch, the raw
body otherwise. -/
def resContent (join : Str → Str → Str) (pathOf : Str → Str) (url : Str)
    (r : FetchResult) : List Nat :=
  if isCssBranch pathOf url (resourceCT r.contentType)
  then utf8Encode (css_url_sub join url r.text) else r.body

/-- The media type served by `/resource` on a cache miss. -/
def resType (pathOf : Str → Str) (url : Str) (r : FetchResult) : Str :=
  if isCssBranch pathOf url (resourceCT r.contentType)
  then str "text/css" else resourceCT r.contentType

lemma resource_hit_eq (envWl : Str) (fetch : Fetch) (join : Str → Str → Str)
    (pathOf : Str → Str) (s : St) (url : Str) (content : List Nat) (ctype : Str)
    (habs : is_absolute url = true) (hok : isAllowed envWl url = true)
    (hc : alookup s.resourceCache url = some (content, ctype)) :
    resource envWl fetch join pathOf s url = ⟨.ok ⟨content, ctype⟩, s, false⟩ := by
  simp [resource, habs, hok, hc]

lemma resource_fetch_eq (envWl : Str) (fetch : Fetch) (join : Str → Str → Str)
    (pathOf : Str → Str) (s : St) (url : Str) (r : FetchResult)
    (habs : is_absolute url = true) (hok : isAllowed envWl url = true)
    (hc : alookup s.resourceCache url = none) (hf : fetch url = .ok r) :
    resource envWl fetch join pathOf s url
      = ⟨.ok ⟨resContent join pathOf url r, resType pathOf url r⟩,
          if (resContent join pathOf url r).length ≤ maxResBytes
          then ⟨s.proxyCache, aset s.resourceCache url
                  (resContent join pathOf url r, resType pathOf url r)⟩
          else s, true⟩ := by
  simp [resource, habs, hok, hc, hf, resContent, resType]

/-- C7: if every cached resource holds at most `5 * 1024 * 1024` bytes,
the same holds after any `/resource` request and after a session reset;
moreover a response whose body exceeds the bound leaves the state
untouched and can only have come from a fetch, not from the cache
(`alookup ... = none`), so an identical follow-up request misses the
cache again (main.py:297-301, 304-308). -/
theorem resource_cache_size_invariant (envWl : Str) (fetch : Fetch)
    (join : Str → Str → Str) (pathOf : Str → Str) (s : St) (url : Str)
    (hinv : ∀ p ∈ s.resourceCache, p.2.1.length ≤ maxResBytes) :
    (∀ p ∈ (resource envWl fetch join pathOf s url).state.resourceCache,
        p.2.1.length ≤ maxResBytes)
    ∧ (∀ p ∈ (reset_session s).resourceCache, p.2.1.length ≤ maxResBytes)
    ∧ (∀ resp, (resource envWl fetch join pathOf s url).result = .ok resp →
        maxResBytes < resp.body.length →
        (resource envWl fetch join pathOf s url).state = s
        ∧ alookup s.resourceCache url = none) := by
  refine ⟨?_, by simp [reset_session], ?_⟩
  · by_cases habs : is_absolute url = true
    · by_cases hok : isAllowed envWl url = true
      · cases hc : alookup s.resourceCache url with
        | some p =>
          obtain ⟨content, ctype⟩ := p
          rw [resource_hit_eq envWl fetch join pathOf s url content ctype habs hok hc]
          exact hinv
        | none =>
          cases hf : fetch url with
          | error e =>
            simp only [resource, habs, hok, hc, hf, Bool.not_true, Bool.false_eq_true,
              if_false]
            exact hinv
          | ok r =>
            rw [resource_fetch_eq envWl fetch join pathOf s url r habs hok hc hf]
            intro p hp
            by_cases hsz : (resContent join pathOf url r).length ≤ maxResBytes
            · simp only [hsz, if_true] at hp
              rcases mem_aset _ _ _ _ hp with h | h
              · subst h
                exact hsz
              · exact hinv p h
            · simp only [hsz, if_false] at hp
              exact hinv p hp
      · have hok' : isAllowed envWl url = false := by simpa using hok
        simp only [resource, habs, hok', Bool.not_true, Bool.false_eq_true, if_false,
          Bool.not_false, if_true]
        exact hinv
    · have habs' : is_absolute url = false := by
        revert habs
        cases is_absolute url <;> simp
      simp only [resource, habs', Bool.not_false, if_true]
      exact hinv
  · intro resp hres hbig
    by_cases habs : is_absolute url = true
    · by_cases hok : isAllowed envWl url = true
      · cases hc : alookup s.resourceCache url with
        | some p =>
          obtain ⟨content, ctype⟩ := p
          rw [resource_hit_eq envWl fetch join pathOf s url content ctype habs hok hc] at hres
          have hresp : resp = ⟨content, ctype⟩ := by
            have h' : Except.ok (⟨content, ctype⟩ : RResp) = Except.ok resp := hres
            simpa using h'.symm
          subst hresp
          have hle : content.length ≤ maxResBytes :=
            hinv (url, (content, ctype)) (alookup_mem _ _ _ hc)
          have hbig' : maxResBytes < content.length := hbig
          omega
        | none =>
          cases hf : fetch url with
          | error e =>
            simp [resource, habs, hok, hc, hf] at hres
          | ok r =>
            rw [resource_fetch_eq envWl fetch join pathOf s url r habs hok hc hf] at hres ⊢
            have hresp : resp = ⟨resContent join pathOf url r, resType pathOf url r⟩ := by
              have h' : Except.ok (⟨resContent join pathOf url r, resType pathOf url r⟩ : RResp)
                  = Except.ok resp := hres
              simpa using h'.symm
            subst hresp
            have hlen : ¬ (resContent join pathOf url r).length ≤ maxResBytes :=
              Nat.not_le.mpr hbig
            refine ⟨?_, rfl⟩
            simp [hlen]
      · have hok' : isAllowed envWl url = false := by simpa using hok
        simp [resource, habs, hok'] at hres
    · have habs' : is_absolute url = false := by
        revert habs
        cases is_absolute url <;> simp
      simp [resource, habs'] at hres

/-- Witness for `resource_cache_size_invariant`: a one-entry cache within
the bound, a cache-hit request, and the surviving entry still within the
bound. -/
theorem resource_cache_size_invariant_witness :
    (∀ p ∈ (⟨[], [(str "https://a/r", ([55], str "text/css"))]⟩ : St).resourceCache,
        p.2.1.length ≤ maxResBytes)
    ∧ ((str "https://a/r", (([55] : List Nat), str "text/css")) : Str × (List Nat × Str)).2.1.length
        ≤ maxResBytes :=
  ⟨by decide,
    (resource_cache_size_invariant (str "") fetch0 join0 pathOf0
      ⟨[], [(str "https://a/r", ([55], str "text/css"))]⟩ (str "https://a/r")
      (by decide)).1 (str "https://a/r", ([55], str "text/css")) (by decide)⟩
